import Mathlib

/-!
# XRP read context (`xrp/xrp_context.cc`)

A shallow embedding of `XRPContext` (constructor, `Get`, `Reset`, `AddFile`,
`GetSampleRate`) and of `handleCompaction`.

* Unsigned machine integers are `Nat`; where the source narrows to `uint32_t`
  the reduction `% 2 ^ 32` is written out.
* The scratch buffer is only ever accessed through `ctx`, the
  `rocksdb_ebpf_ctx` record laid over it, so it is modelled as that record.
* The offload system call and `GetContext::SaveValue` are collaborators
  outside the file; they are passed in as functions and every call made to
  them is recorded in an event list.
* The process environment is an explicit map from names to values.
* `xrp_context.h` and the RocksDB headers are not part of the sources at hand.
  Their constants are the fields of `Params`.
-/

namespace XRP

/-! ## Constants -/

/-- Constants the translation unit takes from headers: `MAX_KEY_LEN`, the
number of entries of `ctx->file_array`, the sizes of `ctx->key` and of
`ctx->data_ctx.value`, `BlockBasedTable::kBlockTrailerSize`,
`EBPF_SCRATCH_BUFFER_SIZE`, `huge_page_size`, the enumerators `kIndexStage`
and `kDataStage` of `parse_stage`, and `kTypeValue` of `ValueType`. -/
structure Params where
  MAX_KEY_LEN : Nat
  FILE_ARRAY_SIZE : Nat
  KEY_SIZE : Nat
  VALUE_SIZE : Nat
  kBlockTrailerSize : Nat
  EBPF_SCRATCH_BUFFER_SIZE : Nat
  huge_page_size : Nat
  kIndexStage : Nat
  kDataStage : Nat
  kTypeValue : Nat
  deriving DecidableEq, Repr

/-- Modelled from the spec: the header that defines `EBPF_BLOCK_SIZE` is
missing; the spec names it the page/alignment unit and gives one page as 4096
bytes, the literal `Get` uses for its default request. -/
def EBPF_BLOCK_SIZE : Nat := 4096

/-- Number of values of a `uint32_t`. -/
def UINT32_RANGE : Nat := 2 ^ 32

/-- The value `(uint32_t)-1`, the "skip this file" marker of `AddFile`. -/
def SKIP_FD : Nat := UINT32_RANGE - 1

/-- One concrete choice of the constants, used where a definition is evaluated
on an explicit input. No general theorem depends on these values. -/
def refParams : Params where
  MAX_KEY_LEN := 63
  FILE_ARRAY_SIZE := 2
  KEY_SIZE := 64
  VALUE_SIZE := 8
  kBlockTrailerSize := 5
  EBPF_SCRATCH_BUFFER_SIZE := 4096
  huge_page_size := 2097152
  kIndexStage := 2
  kDataStage := 4
  kTypeValue := 1

/-! ## Data model -/

/-- The record `struct file_context`. -/
structure file_context where
  fd : Nat
  offset : Nat
  block_offset : Nat
  bytes_to_read : Nat
  stage : Nat
  deriving DecidableEq, Repr

/-- The record behind `ctx->handle` (`offset`, `size`), also the shape of a
RocksDB `BlockHandle`. -/
structure block_handle where
  offset : Nat
  size : Nat
  deriving DecidableEq, Repr

/-- The record behind `ctx->data_ctx`: value type, sequence number and the
inline value bytes. -/
structure data_context where
  vt : Nat
  seq : Nat
  value : List Nat
  deriving DecidableEq, Repr

/-- The record `struct rocksdb_ebpf_ctx`, restricted to the members the
translation unit touches. -/
structure rocksdb_ebpf_ctx where
  file_array : List file_context
  file_count : Nat
  key : List Nat
  block_offset : Nat
  stage : Nat
  handle : block_handle
  found : Nat
  data_ctx : data_context
  deriving DecidableEq, Repr

/-- An all-zero `file_context`. -/
def zero_file : file_context := ⟨0, 0, 0, 0, 0⟩

/-- The descriptor after `memset(scratch_buf, 0, EBPF_SCRATCH_BUFFER_SIZE)`. -/
def zero_ctx (P : Params) : rocksdb_ebpf_ctx where
  file_array := List.replicate P.FILE_ARRAY_SIZE zero_file
  file_count := 0
  key := List.replicate P.KEY_SIZE 0
  block_offset := 0
  stage := 0
  handle := ⟨0, 0⟩
  found := 0
  data_ctx := ⟨0, 0, List.replicate P.VALUE_SIZE 0⟩

/-- The members of `XRPContext`: mode flag, program descriptor, transfer
buffer (`data_buf`) and the descriptor laid over `scratch_buf`. -/
structure XRPContext where
  is_bpfof : Bool
  bpf_fd : Int
  data_buf : List Nat
  ctx : rocksdb_ebpf_ctx
  deriving DecidableEq, Repr

/-- The effect of `memset(buf, c, n)` on a buffer of at least `n` bytes. -/
def memset (buf : List Nat) (c n : Nat) : List Nat :=
  List.replicate n c ++ buf.drop n

/-- The constructor `XRPContext::XRPContext` when every allocation succeeds;
`progfd` is what `load_bpf_program` returned (used in the non-bpfof mode
only). A failed allocation or load throws and leaves no object. -/
def XRPContext.create (P : Params) (progfd : Int) (_is_bpfof : Bool) : XRPContext :=
  if _is_bpfof then
    { is_bpfof := true
      bpf_fd := -1234
      data_buf := List.replicate P.EBPF_SCRATCH_BUFFER_SIZE 0
      ctx := zero_ctx P }
  else
    { is_bpfof := false
      bpf_fd := progfd
      data_buf := List.replicate P.huge_page_size 0
      ctx := zero_ctx P }

/-! ## Collaborators -/

/-- The arguments of `syscall(SYS_READ_XRP, fd, data_buf, request_size, offset,
bpf_fd, scratch_buf)`; the two buffers are passed by their contents. -/
structure OffloadArgs where
  fd : Nat
  data_buf : List Nat
  request_size : Nat
  offset : Nat
  bpf_fd : Int
  scratch : rocksdb_ebpf_ctx
  deriving DecidableEq, Repr

/-- What the offload call leaves behind: its return value and the contents it
wrote to the transfer buffer and to the descriptor. -/
structure OffloadResult where
  ret : Int
  data_buf : List Nat
  scratch : rocksdb_ebpf_ctx
  deriving DecidableEq, Repr

/-- The privileged side, as a function of what it is handed. -/
abbrev Offload := OffloadArgs → OffloadResult

/-- Where a `Slice` points: at `ctx->data_ctx.value`, or at caller memory
identified by a tag. -/
inductive Ptr where
  | inline_value
  | caller (tag : Nat)
  deriving DecidableEq, Repr

/-- A `Slice` as `Get` handles its `value` argument: `data_` and `size_`. -/
structure Slice where
  data_ : Ptr
  size_ : Nat
  deriving DecidableEq, Repr

/-- The record `ParsedInternalKey(user_key, sequence, type)`. -/
structure ParsedInternalKey where
  user_key : List Nat
  sequence : Nat
  type : Nat
  deriving DecidableEq, Repr

/-- The result sink `GetContext::SaveValue(internal_key, value, matched)`: given
the key record, the value and the current `*matched`, the new `*matched`. -/
abbrev GetContext := ParsedInternalKey → Slice → Bool → Bool

/-- The status values `Get` produces. -/
inductive Status where
  | OK
  | InvalidArgument
  | Corruption
  deriving DecidableEq, Repr

/-- Calls `Get` makes to its collaborators, in order. -/
inductive Event where
  | syscall (args : OffloadArgs)
  | SaveValue (internal_key : ParsedInternalKey) (value : Slice) (matched : Bool)
  deriving DecidableEq, Repr

/-- Undefined behaviour the methods can run into: `strlen` in `Get` leaving the
inline value field because the field holds no zero byte, and the stores of
`AddFile` going through a pointer past the end of `file_array`. -/
inductive Fault where
  | unterminated_value
  | file_array_overrun
  deriving DecidableEq, Repr

/-- What a call of `Get` yields: the returned status, the `value` and
`*matched` arguments after the call, the collaborator calls made, the object
afterwards, and the undefined behaviour it ran into, if any. -/
structure GetResult where
  status : Status
  value : Slice
  matched : Bool
  events : List Event
  self : XRPContext
  fault : Option Fault

/-! ## `XRPContext::Get` -/

/-- The bytes `strncpy(dest, src, n)` stores: bytes of `src` up to its first
zero byte, then zeros, `n` bytes in all. -/
def strncpy_bytes : List Nat → Nat → List Nat
  | _, 0 => []
  | [], n + 1 => List.replicate (n + 1) 0
  | c :: cs, n + 1 => if c = 0 then List.replicate (n + 1) 0 else c :: strncpy_bytes cs n

/-- The destination array after `strncpy(dest, src, n)`. -/
def strncpy (dest src : List Nat) (n : Nat) : List Nat :=
  strncpy_bytes src n ++ dest.drop n

/-- The scan of `strlen` over an array: the index of its first zero byte, or
`none` when the array has none and the scan leaves it. -/
def strlen : List Nat → Option Nat
  | [] => none
  | c :: cs => if c = 0 then some 0 else (strlen cs).map (· + 1)

/-- The expression `~(EBPF_BLOCK_SIZE - 1)` as a 32-bit mask. -/
def block_mask : Nat := UINT32_RANGE - 1 - (EBPF_BLOCK_SIZE - 1)

/-- The `request_size` computation of `Get` (a `uint32_t`) from the seeded
`ctx->stage`, `ctx->block_offset` and `ctx->handle.size`. -/
def request_size (P : Params) (stage block_offset size : Nat) : Nat :=
  if stage = P.kDataStage then
    let r := (block_offset + size + P.kBlockTrailerSize) % UINT32_RANGE
    ((r + (EBPF_BLOCK_SIZE - 1)) % UINT32_RANGE) &&& block_mask
  else if stage = P.kIndexStage then
    let r := (block_offset + size + P.kBlockTrailerSize) % UINT32_RANGE
    ((r + (EBPF_BLOCK_SIZE - 1)) % UINT32_RANGE) &&& block_mask
  else
    4096

/-- The entry `ctx->file_array[0]`. -/
def start_file (s : XRPContext) : file_context :=
  s.ctx.file_array.getD 0 zero_file

/-- The descriptor as `Get` has prepared it when it issues the call: key
copied in, `block_offset`, `stage` and `handle` seeded from the first entry. -/
def seeded_ctx (s : XRPContext) (key : List Nat) : rocksdb_ebpf_ctx :=
  { s.ctx with
    key := strncpy s.ctx.key key key.length
    block_offset := (start_file s).block_offset
    stage := (start_file s).stage
    handle := ⟨(start_file s).offset, (start_file s).bytes_to_read⟩ }

/-- The arguments `Get` passes to the offload call. -/
def offload_args (P : Params) (s : XRPContext) (key : List Nat) : OffloadArgs where
  fd := (start_file s).fd
  data_buf := s.data_buf
  request_size :=
    request_size P (seeded_ctx s key).stage (seeded_ctx s key).block_offset
      (seeded_ctx s key).handle.size
  offset := (start_file s).offset
  bpf_fd := s.bpf_fd
  scratch := seeded_ctx s key

/-- A buffer of fixed length after the other side wrote the bytes `new` from
its start: bytes past the end of the buffer are not part of it. -/
def overwrite : List Nat → List Nat → List Nat
  | [], _ => []
  | o :: os, [] => o :: os
  | _ :: os, n :: ns => n :: overwrite os ns

/-- The method `XRPContext::Get(key, value, get_context, matched)`. `matched`
is the value `*matched` holds on entry. When `strlen` leaves the inline value
field the result is flagged with the fault and holds what had happened up to
that point. -/
def Get (P : Params) (sys : Offload) (get_context : GetContext) (s : XRPContext)
    (key : List Nat) (value : Slice) (matched : Bool) : GetResult :=
  if key.length > P.MAX_KEY_LEN ∨ s.ctx.file_count = 0 then
    ⟨Status.InvalidArgument, value, matched, [], s, none⟩
  else
    let args := offload_args P s key
    let res := sys args
    let s1 : XRPContext :=
      { s with data_buf := overwrite s.data_buf res.data_buf, ctx := res.scratch }
    let st := if res.ret < 0 then Status.Corruption else Status.OK
    if s1.ctx.found = 1 then
      let v := s1.ctx.data_ctx.vt % 256
      let internal_key : ParsedInternalKey := ⟨key, s1.ctx.data_ctx.seq, v⟩
      if v = P.kTypeValue then
        match strlen s1.ctx.data_ctx.value with
        | none =>
          ⟨st, ⟨Ptr.inline_value, value.size_⟩, matched, [Event.syscall args], s1,
            some Fault.unterminated_value⟩
        | some n =>
          let value1 : Slice := ⟨Ptr.inline_value, n⟩
          ⟨st, value1, get_context internal_key value1 matched,
            [Event.syscall args, Event.SaveValue internal_key value1 matched], s1, none⟩
      else
        ⟨st, value, get_context internal_key value matched,
          [Event.syscall args, Event.SaveValue internal_key value matched], s1, none⟩
    else
      ⟨st, value, matched, [Event.syscall args], s1, none⟩

/-! ## `XRPContext::Reset` and `XRPContext::AddFile` -/

/-- The method `XRPContext::Reset`. -/
def Reset (P : Params) (s : XRPContext) : XRPContext :=
  { s with
    data_buf :=
      if s.is_bpfof then memset s.data_buf 0 P.EBPF_SCRATCH_BUFFER_SIZE else s.data_buf
    ctx := zero_ctx P }

/-- What `AddFile` reads of its `BlockBasedTable` argument: the descriptor of
the POSIX file behind `rep->file->file()` (`none` for a null file) and
`rep->footer.index_handle()`. -/
structure BlockBasedTable where
  file : Option Nat
  index_handle : block_handle
  deriving DecidableEq, Repr

/-- The exception `AddFile` throws. -/
inductive Exn where
  | runtime_error (what : String)
  deriving DecidableEq, Repr

/-- How a call of `AddFile` ends when it does not return: by an exception, or in
undefined behaviour. -/
inductive Abort where
  | threw (e : Exn)
  | fault (f : Fault)
  deriving DecidableEq, Repr

/-- The entry `AddFile` builds for descriptor `sst_fd`. -/
def new_file (P : Params) (sst : BlockBasedTable) (cache_file : file_context)
    (sst_fd : Nat) : file_context :=
  if cache_file.stage = P.kDataStage then
    let offset := (cache_file.offset / EBPF_BLOCK_SIZE) * EBPF_BLOCK_SIZE
    let block_offset := cache_file.offset - offset
    let size := cache_file.bytes_to_read
    { fd := sst_fd, offset := offset, block_offset := block_offset,
      bytes_to_read := size, stage := P.kDataStage }
  else
    let offset := (sst.index_handle.offset / EBPF_BLOCK_SIZE) * EBPF_BLOCK_SIZE
    let block_offset := sst.index_handle.offset - offset
    let size := sst.index_handle.size
    { fd := sst_fd, offset := offset, block_offset := block_offset,
      bytes_to_read := size, stage := P.kIndexStage }

/-- The method `XRPContext::AddFile(sst, cache_file)`. The source has no test
of `file_count` against the size of `file_array`: it takes the pointer
`ctx->file_array + ctx->file_count++` and stores the five fields through it.
When the old count is below `FILE_ARRAY_SIZE` the entry at that index is
written. Otherwise the stores go past the end of the array, into whatever
follows it in the scratch buffer: that is undefined behaviour, what it
overwrites depends on the layout of the record, and the call ends in the fault
`file_array_overrun`. -/
def AddFile (P : Params) (s : XRPContext) (sst : BlockBasedTable)
    (cache_file : file_context) : Except Abort XRPContext :=
  if cache_file.fd = SKIP_FD then
    .ok s
  else
    match sst.file with
    | none => .error (Abort.threw (Exn.runtime_error "SST file not found"))
    | some fd =>
      let sst_fd := fd % UINT32_RANGE
      let idx := s.ctx.file_count
      if idx < P.FILE_ARRAY_SIZE then
        .ok { s with
          ctx := { s.ctx with
            file_count := idx + 1
            file_array := s.ctx.file_array.set idx (new_file P sst cache_file sst_fd) } }
      else
        .error (Abort.fault Fault.file_array_overrun)

/-! ## Sequences of calls -/

/-- One call on an `XRPContext`, with its arguments. -/
inductive Call where
  | AddFile (sst : BlockBasedTable) (cache_file : file_context)
  | Get (key : List Nat) (value : Slice) (get_context : GetContext) (matched : Bool)
  | Reset

/-- What a caller observes of one call. -/
inductive Obs where
  | added
  | threw (e : Exn)
  | got (status : Status) (value : Slice) (matched : Bool) (events : List Event)
  | fault (f : Fault) (events : List Event)
  | reset

/-- One call: the object afterwards and what was observed. `none` for the
object when the call ran into undefined behaviour. -/
def step (P : Params) (sys : Offload) (s : XRPContext) : Call → Option XRPContext × Obs
  | Call.AddFile sst cache_file =>
    match AddFile P s sst cache_file with
    | .ok s1 => (some s1, Obs.added)
    | .error (Abort.threw e) => (some s, Obs.threw e)
    | .error (Abort.fault f) => (none, Obs.fault f [])
  | Call.Get key value get_context matched =>
    match (Get P sys get_context s key value matched).fault with
    | none =>
      (some (Get P sys get_context s key value matched).self,
        Obs.got (Get P sys get_context s key value matched).status
          (Get P sys get_context s key value matched).value
          (Get P sys get_context s key value matched).matched
          (Get P sys get_context s key value matched).events)
    | some f => (none, Obs.fault f (Get P sys get_context s key value matched).events)
  | Call.Reset => (some (Reset P s), Obs.reset)

/-- A sequence of calls: the object afterwards (the last one reached when a
call ran into undefined behaviour, which ends the run) and the observations. -/
def run (P : Params) (sys : Offload) : XRPContext → List Call → XRPContext × List Obs
  | s, [] => (s, [])
  | s, c :: cs =>
    match step P sys s c with
    | (some s1, o) => ((run P sys s1 cs).1, o :: (run P sys s1 cs).2)
    | (none, o) => (s, [o])

/-! ## The sampling rate -/

/-- The process environment: the value of each variable, if set. -/
abbrev Env := String → Option String

/-- The call `getenv(name)`. -/
def getenv (env : Env) (name : String) : Option String := env name

/-- The call `setenv(name, value, overwrite)`: return code and environment
afterwards. It fails for an empty name or one that holds `=`. -/
def setenv (env : Env) (name value : String) (overwrite : Int) : Int × Env :=
  if name = "" ∨ '=' ∈ name.toList then (-1, env)
  else if overwrite ≠ 0 ∨ env name = none then
    (0, fun n => if n = name then some value else env n)
  else (0, env)

/-- The environment seen by other readers while `handleCompaction` sleeps
(`none` when it returns before sleeping) and the one it leaves behind. -/
structure CompactionRun where
  during_sleep : Option Env
  after : Env

/-- The function `handleCompaction(sec)`. Sleeping changes nothing in the
environment, so `sec` does not enter the result. -/
def handleCompaction (_sec : Int) (env : Env) : CompactionRun :=
  match getenv env "XRP_ADAPTIVE_RATE" with
  | none => ⟨none, env⟩
  | some _ =>
    match getenv env "XRP_SAMPLE_RATE" with
    | none => ⟨none, env⟩
    | some old_rate =>
      let r1 := setenv env "XRP_SAMPLE_RATE" "1" 1
      if r1.1 ≠ 0 then ⟨none, r1.2⟩
      else
        let r2 := setenv r1.2 "XRP_SAMPLE_RATE" old_rate 1
        ⟨some r1.2, r2.2⟩

/-- The exceptions of `std::stoi`. -/
inductive StoiError where
  | invalid_argument
  | out_of_range
  deriving DecidableEq, Repr

/-- The test `isspace` in the C locale. -/
def isspace (c : Char) : Bool :=
  c.toNat = 32 || (9 ≤ c.toNat && c.toNat ≤ 13)

/-- The value of a run of decimal digits. -/
def digits_value (ds : List Char) : Nat :=
  ds.foldl (fun acc c => 10 * acc + (c.toNat - 48)) 0

/-- The call `std::stoi(str)` in base 10: leading white space is skipped, an
optional sign is read, then the longest run of digits; no digit at all throws
`invalid_argument`, a value outside `int` throws `out_of_range`. -/
def stoi (str : String) : Except StoiError Int :=
  let cs := str.toList.dropWhile isspace
  let signed : Bool × List Char :=
    match cs with
    | '-' :: rest => (true, rest)
    | '+' :: rest => (false, rest)
    | rest => (false, rest)
  let ds := signed.2.takeWhile Char.isDigit
  if ds = [] then .error StoiError.invalid_argument
  else
    let v : Int := if signed.1 then -(digits_value ds : Int) else (digits_value ds : Int)
    if v < -2147483648 ∨ 2147483647 < v then .error StoiError.out_of_range
    else .ok v

/-- The method `XRPContext::GetSampleRate`: only `std::invalid_argument` is
caught, any other exception of `std::stoi` leaves the function. The `int`
result is stored in a `uint32_t`. -/
def GetSampleRate (env : Env) : Except StoiError Nat :=
  match getenv env "XRP_SAMPLE_RATE" with
  | none => .ok 100
  | some sample_var =>
    match stoi sample_var with
    | .ok v => .ok (v % (UINT32_RANGE : Int)).toNat
    | .error StoiError.invalid_argument => .ok 100
    | .error e => .error e

/-! ## Derived notions used in the statements -/

/-- The object after the offload call returned `res`: the call wrote into the
transfer buffer and into the descriptor. -/
def after_call (s : XRPContext) (res : OffloadResult) : XRPContext :=
  { s with data_buf := overwrite s.data_buf res.data_buf, ctx := res.scratch }

/-- The status `Get` derives from the return value of the offload call. -/
def call_status (res : OffloadResult) : Status :=
  if res.ret < 0 then Status.Corruption else Status.OK

/-- The offload calls among the events of a `Get`, by their arguments. -/
def syscall_args : List Event → List OffloadArgs
  | [] => []
  | Event.syscall a :: es => a :: syscall_args es
  | Event.SaveValue _ _ _ :: es => syscall_args es

/-- The sink calls among the events of a `Get`, by their arguments. -/
def sink_calls : List Event → List (ParsedInternalKey × Slice × Bool)
  | [] => []
  | Event.syscall _ :: es => sink_calls es
  | Event.SaveValue k v m :: es => (k, v, m) :: sink_calls es

/-- The call `AddFile(table, Data, offset 5000, 200 bytes)` on a table whose
file has descriptor 7; the handle 7 in the descriptor is not the skip marker. -/
def data_add (P : Params) : Call :=
  Call.AddFile ⟨some 7, ⟨8192, 100⟩⟩ ⟨7, 5000, 0, 200, P.kDataStage⟩

/-- Same mode flag, same program descriptor and same transfer-buffer length. -/
def same_shape (s t : XRPContext) : Prop :=
  s.is_bpfof = t.is_bpfof ∧ s.bpf_fd = t.bpf_fd ∧ s.data_buf.length = t.data_buf.length

/-- For every `Get` observed, the first byte of the transfer buffer it handed
to each offload call. -/
def transfer_heads : List Obs → List (Option Nat)
  | [] => []
  | Obs.got _ _ _ events :: os =>
    (syscall_args events).map (fun a => a.data_buf.head?) ++ transfer_heads os
  | _ :: os => transfer_heads os

/-! ## Concrete inputs -/

/-- An offload call that reads nothing and finds nothing: it returns 0 and
leaves both buffers as they are. -/
def null_offload : Offload := fun a => ⟨0, a.data_buf, a.scratch⟩

/-- An offload call that returns 0 after writing the byte 1 at the start of the
transfer buffer. -/
def scribble_offload : Offload := fun a => ⟨0, [1], a.scratch⟩

/-- A result sink that leaves `*matched` as it is. -/
def keep_matched : GetContext := fun _ _ m => m

/-- A table whose file has descriptor 7 and whose index block is at offset
8192 with size 100. -/
def table7 : BlockBasedTable := ⟨some 7, ⟨8192, 100⟩⟩

/-- A `value` argument that points at caller memory. -/
def caller_value : Slice := ⟨Ptr.caller 0, 0⟩

/-- A fresh bpfof-mode object after `AddFile` of a Data descriptor with offset
5000 and 200 bytes to read on `table7`. -/
def scenario_state : XRPContext :=
  (run refParams null_offload (XRPContext.create refParams 0 true)
    [Call.AddFile table7 ⟨7, 5000, 0, 200, 4⟩]).1

/-- A fresh bpfof-mode object after `AddFile` of a Data descriptor with offset 0
and `0xFFFFFFFF` bytes to read on `table7`. -/
def wide_state : XRPContext :=
  (run refParams null_offload (XRPContext.create refParams 0 true)
    [Call.AddFile table7 ⟨7, 0, 0, 4294967295, 4⟩]).1

/-- One lookup: register a Data descriptor, then `Get` the key `k`. -/
def lookup_calls : List Call :=
  [Call.AddFile table7 ⟨7, 5000, 0, 200, 4⟩, Call.Get [107] caller_value keep_matched false]

/-- An environment with the adaptive toggle present and the rate set to 50. -/
def adaptive_env : Env := fun n =>
  if n = "XRP_ADAPTIVE_RATE" then some "1"
  else if n = "XRP_SAMPLE_RATE" then some "50"
  else none

/-- An environment whose rate is numeric text too large for an `int`. -/
def oversized_env : Env := fun n =>
  if n = "XRP_SAMPLE_RATE" then some "99999999999" else none

/-! ## Theorems -/

/-- Masking a 32-bit value with `~(EBPF_BLOCK_SIZE - 1)` rounds it down to a
multiple of the block size. -/
theorem land_block_mask (x : Nat) (h : x < UINT32_RANGE) :
    x &&& block_mask = x / EBPF_BLOCK_SIZE * EBPF_BLOCK_SIZE := by
  have hm : block_mask = (2 ^ 20 - 1) <<< 12 := by decide
  have hd : x / EBPF_BLOCK_SIZE * EBPF_BLOCK_SIZE = (x >>> 12) <<< 12 := by
    rw [Nat.shiftLeft_eq, Nat.shiftRight_eq_div_pow]; rfl
  rw [hm, hd]
  apply Nat.eq_of_testBit_eq
  intro i
  simp only [Nat.testBit_and, Nat.testBit_shiftLeft, Nat.testBit_shiftRight,
    Nat.testBit_two_pow_sub_one]
  by_cases h12 : 12 ≤ i
  · have e : 12 + (i - 12) = i := by omega
    by_cases h32 : i < 32
    · have : i - 12 < 20 := by omega
      simp [h12, this, e]
    · have hx : x.testBit i = false := by
        apply Nat.testBit_lt_two_pow
        calc x < 2 ^ 32 := h
          _ ≤ 2 ^ i := Nat.pow_le_pow_right (by decide) (by omega)
      simp [h12, e, hx]
  · simp [h12]

/-- The rounded request size is a multiple of the block size, wrapped or not. -/
theorem align_mod (r : Nat) :
    (((r + (EBPF_BLOCK_SIZE - 1)) % UINT32_RANGE) &&& block_mask) % EBPF_BLOCK_SIZE = 0 := by
  rw [land_block_mask _ (Nat.mod_lt _ (by decide))]
  exact Nat.mul_mod_left _ _

/-- Without 32-bit wrap-around the rounded request size covers the bytes asked
for. -/
theorem align_ge (n : Nat) (h : n + EBPF_BLOCK_SIZE ≤ UINT32_RANGE) :
    n ≤ ((n % UINT32_RANGE + (EBPF_BLOCK_SIZE - 1)) % UINT32_RANGE) &&& block_mask := by
  rw [land_block_mask _ (Nat.mod_lt _ (by decide))]
  simp only [EBPF_BLOCK_SIZE, UINT32_RANGE] at *
  rw [Nat.mod_eq_of_lt (by omega), Nat.mod_eq_of_lt (by omega)]
  omega

/-- `Get` on an oversized key or an empty descriptor list: the early return. -/
theorem Get_invalid (P : Params) (sys : Offload) (gc : GetContext) (s : XRPContext)
    (key : List Nat) (value : Slice) (matched : Bool)
    (h : key.length > P.MAX_KEY_LEN ∨ s.ctx.file_count = 0) :
    Get P sys gc s key value matched = ⟨Status.InvalidArgument, value, matched, [], s, none⟩ := by
  unfold Get
  rw [if_pos h]

/-- `Get` on valid arguments when the found flag is not 1 after the call. -/
theorem Get_not_found (P : Params) (sys : Offload) (gc : GetContext) (s : XRPContext)
    (key : List Nat) (value : Slice) (matched : Bool)
    (hkey : key.length ≤ P.MAX_KEY_LEN) (hcount : 1 ≤ s.ctx.file_count)
    (hfound : (sys (offload_args P s key)).scratch.found ≠ 1) :
    Get P sys gc s key value matched =
      ⟨call_status (sys (offload_args P s key)), value, matched,
        [Event.syscall (offload_args P s key)],
        after_call s (sys (offload_args P s key)), none⟩ := by
  have hv : ¬ (key.length > P.MAX_KEY_LEN ∨ s.ctx.file_count = 0) := by omega
  unfold Get
  rw [if_neg hv]
  dsimp only
  rw [if_neg hfound]
  rfl

/-- `Get` on valid arguments when the found flag is 1 and the type is not
`kTypeValue`. -/
theorem Get_found_other (P : Params) (sys : Offload) (gc : GetContext) (s : XRPContext)
    (key : List Nat) (value : Slice) (matched : Bool)
    (hkey : key.length ≤ P.MAX_KEY_LEN) (hcount : 1 ≤ s.ctx.file_count)
    (hfound : (sys (offload_args P s key)).scratch.found = 1)
    (hvt : (sys (offload_args P s key)).scratch.data_ctx.vt % 256 ≠ P.kTypeValue) :
    Get P sys gc s key value matched =
      ⟨call_status (sys (offload_args P s key)), value,
        gc ⟨key, (sys (offload_args P s key)).scratch.data_ctx.seq,
          (sys (offload_args P s key)).scratch.data_ctx.vt % 256⟩ value matched,
        [Event.syscall (offload_args P s key),
          Event.SaveValue ⟨key, (sys (offload_args P s key)).scratch.data_ctx.seq,
            (sys (offload_args P s key)).scratch.data_ctx.vt % 256⟩ value matched],
        after_call s (sys (offload_args P s key)), none⟩ := by
  have hv : ¬ (key.length > P.MAX_KEY_LEN ∨ s.ctx.file_count = 0) := by omega
  unfold Get
  rw [if_neg hv]
  dsimp only
  rw [if_pos hfound, if_neg hvt]
  rfl

/-- `Get` on valid arguments when the found flag is 1, the type is `kTypeValue`
and `strlen` stops inside the inline value field. -/
theorem Get_found_value (P : Params) (sys : Offload) (gc : GetContext) (s : XRPContext)
    (key : List Nat) (value : Slice) (matched : Bool) (n : Nat)
    (hkey : key.length ≤ P.MAX_KEY_LEN) (hcount : 1 ≤ s.ctx.file_count)
    (hfound : (sys (offload_args P s key)).scratch.found = 1)
    (hvt : (sys (offload_args P s key)).scratch.data_ctx.vt % 256 = P.kTypeValue)
    (hlen : strlen (sys (offload_args P s key)).scratch.data_ctx.value = some n) :
    Get P sys gc s key value matched =
      ⟨call_status (sys (offload_args P s key)), ⟨Ptr.inline_value, n⟩,
        gc ⟨key, (sys (offload_args P s key)).scratch.data_ctx.seq,
          (sys (offload_args P s key)).scratch.data_ctx.vt % 256⟩ ⟨Ptr.inline_value, n⟩ matched,
        [Event.syscall (offload_args P s key),
          Event.SaveValue ⟨key, (sys (offload_args P s key)).scratch.data_ctx.seq,
            (sys (offload_args P s key)).scratch.data_ctx.vt % 256⟩ ⟨Ptr.inline_value, n⟩
            matched],
        after_call s (sys (offload_args P s key)), none⟩ := by
  have hv : ¬ (key.length > P.MAX_KEY_LEN ∨ s.ctx.file_count = 0) := by omega
  unfold Get
  rw [if_neg hv]
  dsimp only
  rw [if_pos hfound, if_pos hvt, hlen]
  rfl

/-- `Get` on valid arguments when the found flag is 1, the type is `kTypeValue`
and the inline value field holds no zero byte. -/
theorem Get_found_fault (P : Params) (sys : Offload) (gc : GetContext) (s : XRPContext)
    (key : List Nat) (value : Slice) (matched : Bool)
    (hkey : key.length ≤ P.MAX_KEY_LEN) (hcount : 1 ≤ s.ctx.file_count)
    (hfound : (sys (offload_args P s key)).scratch.found = 1)
    (hvt : (sys (offload_args P s key)).scratch.data_ctx.vt % 256 = P.kTypeValue)
    (hlen : strlen (sys (offload_args P s key)).scratch.data_ctx.value = none) :
    Get P sys gc s key value matched =
      ⟨call_status (sys (offload_args P s key)), ⟨Ptr.inline_value, value.size_⟩, matched,
        [Event.syscall (offload_args P s key)],
        after_call s (sys (offload_args P s key)), some Fault.unterminated_value⟩ := by
  have hv : ¬ (key.length > P.MAX_KEY_LEN ∨ s.ctx.file_count = 0) := by omega
  unfold Get
  rw [if_neg hv]
  dsimp only
  rw [if_pos hfound, if_pos hvt, hlen]
  rfl

/-- On valid arguments the first thing `Get` does to a collaborator is the offload
call, with `offload_args`. -/
theorem Get_events_head (P : Params) (sys : Offload) (gc : GetContext) (s : XRPContext)
    (key : List Nat) (value : Slice) (matched : Bool)
    (hkey : key.length ≤ P.MAX_KEY_LEN) (hcount : 1 ≤ s.ctx.file_count) :
    ∃ rest, (Get P sys gc s key value matched).events
      = Event.syscall (offload_args P s key) :: rest := by
  by_cases hfound : (sys (offload_args P s key)).scratch.found = 1
  · by_cases hvt : (sys (offload_args P s key)).scratch.data_ctx.vt % 256 = P.kTypeValue
    · cases hlen : strlen (sys (offload_args P s key)).scratch.data_ctx.value with
      | none =>
        rw [Get_found_fault P sys gc s key value matched hkey hcount hfound hvt hlen]
        exact ⟨_, rfl⟩
      | some n =>
        rw [Get_found_value P sys gc s key value matched n hkey hcount hfound hvt hlen]
        exact ⟨_, rfl⟩
    · rw [Get_found_other P sys gc s key value matched hkey hcount hfound hvt]
      exact ⟨_, rfl⟩
  · rw [Get_not_found P sys gc s key value matched hkey hcount hfound]
    exact ⟨_, rfl⟩

/-- C1 (amended): for a descriptor count of at least 1 and a key of at most
`MAX_KEY_LEN` bytes, `Get` issues the offload call, and the request size it
passes is a multiple of the page size when the first descriptor has stage Index
or Data, is at least `block_offset + bytes_to_read + kBlockTrailerSize` when
that sum plus one page does not exceed `2 ^ 32` (the request size is a
`uint32_t`), and is exactly 4096 for every other stage. -/
theorem Get_request_size_law (P : Params) (sys : Offload) (gc : GetContext) (s : XRPContext)
    (key : List Nat) (value : Slice) (matched : Bool)
    (hkey : key.length ≤ P.MAX_KEY_LEN) (hcount : 1 ≤ s.ctx.file_count) :
    ∃ args rest,
      (Get P sys gc s key value matched).events = Event.syscall args :: rest ∧
      ((start_file s).stage = P.kIndexStage ∨ (start_file s).stage = P.kDataStage →
        args.request_size % EBPF_BLOCK_SIZE = 0 ∧
        ((start_file s).block_offset + (start_file s).bytes_to_read + P.kBlockTrailerSize
            + EBPF_BLOCK_SIZE ≤ UINT32_RANGE →
          (start_file s).block_offset + (start_file s).bytes_to_read + P.kBlockTrailerSize
            ≤ args.request_size)) ∧
      (¬ ((start_file s).stage = P.kIndexStage ∨ (start_file s).stage = P.kDataStage) →
        args.request_size = 4096) := by
  obtain ⟨rest, hrest⟩ := Get_events_head P sys gc s key value matched hkey hcount
  refine ⟨offload_args P s key, rest, hrest, ?_, ?_⟩
  · intro hstage
    have hrs : (offload_args P s key).request_size
        = ((((start_file s).block_offset + (start_file s).bytes_to_read + P.kBlockTrailerSize)
            % UINT32_RANGE + (EBPF_BLOCK_SIZE - 1)) % UINT32_RANGE) &&& block_mask := by
      simp only [offload_args, seeded_ctx, request_size]
      rcases hstage with h | h
      · by_cases hd : (start_file s).stage = P.kDataStage
        · rw [if_pos hd]
        · rw [if_neg hd, if_pos h]
      · rw [if_pos h]
    rw [hrs]
    exact ⟨align_mod _, fun hb => align_ge _ hb⟩
  · intro hstage
    have h1 : (start_file s).stage ≠ P.kIndexStage := fun h => hstage (Or.inl h)
    have h2 : (start_file s).stage ≠ P.kDataStage := fun h => hstage (Or.inr h)
    simp only [offload_args, seeded_ctx, request_size]
    rw [if_neg h2, if_neg h1]

/-- C1, witness: the scenario descriptor (Data, offset 5000, 200 bytes, key `k`)
meets the hypotheses and the no-wrap bound. -/
theorem Get_request_size_law_witness :
    ((start_file scenario_state).stage = refParams.kDataStage ∧
      (start_file scenario_state).block_offset + (start_file scenario_state).bytes_to_read
        + refParams.kBlockTrailerSize + EBPF_BLOCK_SIZE ≤ UINT32_RANGE) ∧
    ∃ args rest,
      (Get refParams null_offload keep_matched scenario_state [107] caller_value false).events
        = Event.syscall args :: rest ∧
      ((start_file scenario_state).stage = refParams.kIndexStage
          ∨ (start_file scenario_state).stage = refParams.kDataStage →
        args.request_size % EBPF_BLOCK_SIZE = 0 ∧
        ((start_file scenario_state).block_offset + (start_file scenario_state).bytes_to_read
            + refParams.kBlockTrailerSize + EBPF_BLOCK_SIZE ≤ UINT32_RANGE →
          (start_file scenario_state).block_offset + (start_file scenario_state).bytes_to_read
            + refParams.kBlockTrailerSize ≤ args.request_size)) ∧
      (¬ ((start_file scenario_state).stage = refParams.kIndexStage
          ∨ (start_file scenario_state).stage = refParams.kDataStage) →
        args.request_size = 4096) :=
  ⟨by decide,
    Get_request_size_law refParams null_offload keep_matched scenario_state [107] caller_value
      false (by decide) (by decide)⟩

/-- C1, counterexample: the first descriptor is a Data descriptor with
`block_offset = 0` and `bytes_to_read = 0xFFFFFFFF`, registered through
`AddFile`; the sum with the trailer is 4294967300, the 32-bit sum wraps to 4 and
`Get` passes a request size of 4096, far below the sum. (The same input falls
short for every trailer size, since a request size is below `2 ^ 32`.) -/
theorem Get_request_size_wraps :
    [107].length ≤ refParams.MAX_KEY_LEN ∧
    1 ≤ wide_state.ctx.file_count ∧
    (start_file wide_state).stage = refParams.kDataStage ∧
    (start_file wide_state).block_offset + (start_file wide_state).bytes_to_read
      + refParams.kBlockTrailerSize = 4294967300 ∧
    (syscall_args
      (Get refParams null_offload keep_matched wide_state [107] caller_value false).events).map
        (fun a => a.request_size) = [4096] := by
  decide

/-- C2: if the key is longer than `MAX_KEY_LEN` or the descriptor count is 0,
`Get` returns `InvalidArgument`, makes no offload call and no sink call (the
event list is empty), and leaves the object, hence the descriptor buffer and
the transfer buffer, as well as `value` and `*matched` unchanged; and if the key
has at most `MAX_KEY_LEN` bytes and the count is at least 1, the status `Get`
returns is not `InvalidArgument`. -/
theorem Get_invalid_argument (P : Params) (sys : Offload) (gc : GetContext) (s : XRPContext)
    (key : List Nat) (value : Slice) (matched : Bool) :
    ((key.length > P.MAX_KEY_LEN ∨ s.ctx.file_count = 0) →
      Get P sys gc s key value matched
        = ⟨Status.InvalidArgument, value, matched, [], s, none⟩) ∧
    ((key.length ≤ P.MAX_KEY_LEN ∧ 1 ≤ s.ctx.file_count) →
      (Get P sys gc s key value matched).status ≠ Status.InvalidArgument) := by
  refine ⟨Get_invalid P sys gc s key value matched, ?_⟩
  rintro ⟨hkey, hcount⟩
  have hst : ∀ res : OffloadResult, call_status res ≠ Status.InvalidArgument := by
    intro res
    unfold call_status
    split_ifs <;> simp
  by_cases hfound : (sys (offload_args P s key)).scratch.found = 1
  · by_cases hvt : (sys (offload_args P s key)).scratch.data_ctx.vt % 256 = P.kTypeValue
    · cases hlen : strlen (sys (offload_args P s key)).scratch.data_ctx.value with
      | none =>
        rw [Get_found_fault P sys gc s key value matched hkey hcount hfound hvt hlen]
        exact hst _
      | some n =>
        rw [Get_found_value P sys gc s key value matched n hkey hcount hfound hvt hlen]
        exact hst _
    · rw [Get_found_other P sys gc s key value matched hkey hcount hfound hvt]
      exact hst _
  · rw [Get_not_found P sys gc s key value matched hkey hcount hfound]
    exact hst _

/-- C4 (amended): for a descriptor count of at least 1 and a key of at most
`MAX_KEY_LEN` bytes, if the offload call returns a non-negative result and the
found flag is not set afterwards, `Get` returns `OK`, its only collaborator
call is the offload call (the sink is not called), and `*matched` and `value`
are left exactly as the caller passed them in. -/
theorem Get_not_found_ok (P : Params) (sys : Offload) (gc : GetContext) (s : XRPContext)
    (key : List Nat) (value : Slice) (matched : Bool)
    (hkey : key.length ≤ P.MAX_KEY_LEN) (hcount : 1 ≤ s.ctx.file_count)
    (hret : 0 ≤ (sys (offload_args P s key)).ret)
    (hfound : (sys (offload_args P s key)).scratch.found ≠ 1) :
    (Get P sys gc s key value matched).status = Status.OK ∧
    (Get P sys gc s key value matched).events = [Event.syscall (offload_args P s key)] ∧
    (Get P sys gc s key value matched).matched = matched ∧
    (Get P sys gc s key value matched).value = value ∧
    (Get P sys gc s key value matched).fault = none := by
  rw [Get_not_found P sys gc s key value matched hkey hcount hfound]
  refine ⟨?_, rfl, rfl, rfl, rfl⟩
  show call_status _ = Status.OK
  unfold call_status
  rw [if_neg (by omega)]

/-- C4, witness: the scenario (bpfof mode, one Data descriptor with offset 5000
and 200 bytes, key `k`, offload call finding nothing) with `*matched`
initialised to false: status `OK`, no sink call, `*matched` still false. -/
theorem Get_not_found_ok_witness :
    (Get refParams null_offload keep_matched scenario_state [107] caller_value false).status
      = Status.OK ∧
    (Get refParams null_offload keep_matched scenario_state [107] caller_value false).events
      = [Event.syscall (offload_args refParams scenario_state [107])] ∧
    (Get refParams null_offload keep_matched scenario_state [107] caller_value false).matched
      = false ∧
    (Get refParams null_offload keep_matched scenario_state [107] caller_value false).value
      = caller_value ∧
    (Get refParams null_offload keep_matched scenario_state [107] caller_value false).fault
      = none :=
  Get_not_found_ok refParams null_offload keep_matched scenario_state [107] caller_value false
    (by decide) (by decide) (by decide) (by decide)

/-- C4, counterexample: the same scenario with `*matched` holding true on entry.
The offload call returns 0 and leaves the found flag 0, `Get` returns `OK`
without calling the sink, and `*matched` is still true: `Get` never writes it on
this path. -/
theorem Get_not_found_keeps_matched :
    [107].length ≤ refParams.MAX_KEY_LEN ∧
    1 ≤ scenario_state.ctx.file_count ∧
    0 ≤ (null_offload (offload_args refParams scenario_state [107])).ret ∧
    (null_offload (offload_args refParams scenario_state [107])).scratch.found = 0 ∧
    (Get refParams null_offload keep_matched scenario_state [107] caller_value true).status
      = Status.OK ∧
    sink_calls
      (Get refParams null_offload keep_matched scenario_state [107] caller_value true).events
      = [] ∧
    (Get refParams null_offload keep_matched scenario_state [107] caller_value true).matched
      = true := by
  decide

/-- Below capacity, `AddFile` with a file handle other than the skip marker, on
a table that has a file, returns with the entry stored and the count raised by
one. -/
theorem AddFile_below_capacity (P : Params) (s : XRPContext) (sst : BlockBasedTable)
    (cache_file : file_context) (fd : Nat)
    (hskip : cache_file.fd ≠ SKIP_FD) (hfile : sst.file = some fd)
    (hcap : s.ctx.file_count < P.FILE_ARRAY_SIZE) :
    AddFile P s sst cache_file =
      .ok { s with
        ctx := { s.ctx with
          file_count := s.ctx.file_count + 1
          file_array :=
            s.ctx.file_array.set s.ctx.file_count
              (new_file P sst cache_file (fd % UINT32_RANGE)) } } := by
  unfold AddFile
  rw [if_neg hskip, hfile]
  simp only [if_pos hcap]

/-- At or past capacity, `AddFile` with a file handle other than the skip marker,
on a table that has a file, does not return: its stores leave `file_array`. -/
theorem AddFile_at_capacity (P : Params) (s : XRPContext) (sst : BlockBasedTable)
    (cache_file : file_context) (fd : Nat)
    (hskip : cache_file.fd ≠ SKIP_FD) (hfile : sst.file = some fd)
    (hcap : P.FILE_ARRAY_SIZE ≤ s.ctx.file_count) :
    AddFile P s sst cache_file = .error (Abort.fault Fault.file_array_overrun) := by
  unfold AddFile
  rw [if_neg hskip, hfile]
  simp only [if_neg (Nat.not_lt.mpr hcap)]

/-- A run whose first call returns goes on from the object that call left. -/
theorem run_cons_some (P : Params) (sys : Offload) (s s1 : XRPContext) (c : Call)
    (cs : List Call) (o : Obs) (h : step P sys s c = (some s1, o)) :
    run P sys s (c :: cs) = ((run P sys s1 cs).1, o :: (run P sys s1 cs).2) := by
  rw [run, h]

/-- A run ends at the first call that runs into undefined behaviour. -/
theorem run_cons_none (P : Params) (sys : Offload) (s : XRPContext) (c : Call)
    (cs : List Call) (o : Obs) (h : step P sys s c = (none, o)) :
    run P sys s (c :: cs) = (s, [o]) := by
  rw [run, h]

/-- The file handle 7 is not the skip marker. -/
theorem seven_ne_skip : (7 : Nat) ≠ SKIP_FD := by
  decide

/-- Below capacity the call `data_add` returns and raises the count by one. -/
theorem step_data_add_below (P : Params) (sys : Offload) (s : XRPContext)
    (hcap : s.ctx.file_count < P.FILE_ARRAY_SIZE) :
    ∃ s1 : XRPContext, step P sys s (data_add P) = (some s1, Obs.added) ∧
      s1.ctx.file_count = s.ctx.file_count + 1 := by
  have hbelow := AddFile_below_capacity P s ⟨some 7, ⟨8192, 100⟩⟩
    ⟨7, 5000, 0, 200, P.kDataStage⟩ 7 seven_ne_skip rfl hcap
  obtain ⟨s1, hs1, hc1⟩ : ∃ s1 : XRPContext,
      AddFile P s ⟨some 7, ⟨8192, 100⟩⟩ ⟨7, 5000, 0, 200, P.kDataStage⟩ = .ok s1 ∧
        s1.ctx.file_count = s.ctx.file_count + 1 := ⟨_, hbelow, rfl⟩
  exact ⟨s1, by simp only [data_add, step, hs1], hc1⟩

/-- At or past capacity the call `data_add` overruns the array. -/
theorem step_data_add_at (P : Params) (sys : Offload) (s : XRPContext)
    (hcap : P.FILE_ARRAY_SIZE ≤ s.ctx.file_count) :
    step P sys s (data_add P) = (none, Obs.fault Fault.file_array_overrun []) := by
  simp only [data_add, step]
  rw [AddFile_at_capacity P s ⟨some 7, ⟨8192, 100⟩⟩ ⟨7, 5000, 0, 200, P.kDataStage⟩ 7
    seven_ne_skip rfl hcap]

/-- From a count `n` short of the capacity, `n + 1` calls `data_add` are `n`
successful calls that fill the array, then one call that overruns it. -/
theorem run_data_adds (P : Params) (sys : Offload) (n : Nat) :
    ∀ s : XRPContext, s.ctx.file_count + n = P.FILE_ARRAY_SIZE →
      (run P sys s (List.replicate (n + 1) (data_add P))).2
          = List.replicate n Obs.added ++ [Obs.fault Fault.file_array_overrun []] ∧
      (run P sys s (List.replicate (n + 1) (data_add P))).1.ctx.file_count
          = P.FILE_ARRAY_SIZE := by
  induction n with
  | zero =>
    intro s hs
    have hstep := step_data_add_at P sys s (by omega)
    rw [List.replicate_succ, run_cons_none P sys s _ _ _ hstep]
    exact ⟨rfl, by show s.ctx.file_count = _; omega⟩
  | succ n ih =>
    intro s hs
    obtain ⟨s1, hstep, hc1⟩ := step_data_add_below P sys s (by omega)
    have h1 := ih s1 (by omega)
    rw [List.replicate_succ, run_cons_some P sys s s1 _ _ _ hstep]
    exact ⟨by rw [h1.1]; rfl, h1.2⟩

/-- A run of `n` calls `data_add` that stays within the capacity raises the count
by `n`. -/
theorem run_data_adds_count (P : Params) (sys : Offload) (n : Nat) :
    ∀ s : XRPContext, s.ctx.file_count + n ≤ P.FILE_ARRAY_SIZE →
      (run P sys s (List.replicate n (data_add P))).1.ctx.file_count
        = s.ctx.file_count + n := by
  induction n with
  | zero => intro s _; rfl
  | succ n ih =>
    intro s hs
    obtain ⟨s1, hstep, hc1⟩ := step_data_add_below P sys s (by omega)
    have h1 := ih s1 (by omega)
    rw [List.replicate_succ, run_cons_some P sys s s1 _ _ _ hstep]
    show (run P sys s1 (List.replicate n (data_add P))).1.ctx.file_count = _
    omega

/-- C3, failing input: on a freshly opened object, `FILE_ARRAY_SIZE + 1` calls
`AddFile(table, Data, offset 5000, 200 bytes)` with a file handle that is not
the skip marker. The first `FILE_ARRAY_SIZE` calls fill the array and bring the
count to the capacity. The last call, made at capacity, is not rejected: there
is no test of the count, and its stores go through a pointer past the end of
`file_array`. This holds for every value of the constants. -/
theorem AddFile_at_capacity_overruns (P : Params) :
    (run P null_offload (XRPContext.create P 0 true)
        (List.replicate (P.FILE_ARRAY_SIZE + 1) (data_add P))).2
      = List.replicate P.FILE_ARRAY_SIZE Obs.added
          ++ [Obs.fault Fault.file_array_overrun []] ∧
    (run P null_offload (XRPContext.create P 0 true)
        (List.replicate P.FILE_ARRAY_SIZE (data_add P))).1.ctx.file_count
      = P.FILE_ARRAY_SIZE ∧
    step P null_offload
        (run P null_offload (XRPContext.create P 0 true)
          (List.replicate P.FILE_ARRAY_SIZE (data_add P))).1 (data_add P)
      = (none, Obs.fault Fault.file_array_overrun []) := by
  have h0 : (XRPContext.create P 0 true).ctx.file_count = 0 := rfl
  have hcount := run_data_adds_count P null_offload P.FILE_ARRAY_SIZE
    (XRPContext.create P 0 true) (by omega)
  exact ⟨(run_data_adds P null_offload P.FILE_ARRAY_SIZE _ (by omega)).1, by omega,
    step_data_add_at P null_offload _ (by omega)⟩

/-- C9: an `AddFile` call whose file handle is not the skip marker, made below
capacity on a table that has a file, succeeds, raises the count by exactly one,
stores one entry at the old count and leaves every other entry as it was. The
entry's file handle is the table's. For stage Data, with `a` the offset and `n`
the length supplied by the caller, `offset = PAGE * (a / PAGE)`,
`block_offset = a - offset`, `offset % PAGE = 0`, `block_offset < PAGE`,
`offset + block_offset = a`, `bytes_to_read = n` and the stage is Data; for
stage Index the same holds with `a` and `n` the offset and size of the footer's
index handle, and the stage is Index. -/
theorem AddFile_appends (P : Params) (s : XRPContext) (sst : BlockBasedTable)
    (cache_file : file_context) (fd : Nat)
    (hskip : cache_file.fd ≠ SKIP_FD)
    (hcap : s.ctx.file_count < P.FILE_ARRAY_SIZE)
    (hlen : s.ctx.file_array.length = P.FILE_ARRAY_SIZE)
    (hfile : sst.file = some fd) (hfd : fd < UINT32_RANGE)
    (hne : P.kIndexStage ≠ P.kDataStage) :
    ∃ s1 entry, AddFile P s sst cache_file = .ok s1 ∧
      s1.ctx.file_count = s.ctx.file_count + 1 ∧
      s1.ctx.file_array.length = s.ctx.file_array.length ∧
      s1.ctx.file_array[s.ctx.file_count]? = some entry ∧
      (∀ i, i ≠ s.ctx.file_count → s1.ctx.file_array[i]? = s.ctx.file_array[i]?) ∧
      entry.fd = fd ∧
      (cache_file.stage = P.kDataStage →
        entry.offset = EBPF_BLOCK_SIZE * (cache_file.offset / EBPF_BLOCK_SIZE) ∧
        entry.block_offset = cache_file.offset - entry.offset ∧
        entry.offset % EBPF_BLOCK_SIZE = 0 ∧
        entry.block_offset < EBPF_BLOCK_SIZE ∧
        entry.offset + entry.block_offset = cache_file.offset ∧
        entry.bytes_to_read = cache_file.bytes_to_read ∧
        entry.stage = P.kDataStage) ∧
      (cache_file.stage = P.kIndexStage →
        entry.offset = EBPF_BLOCK_SIZE * (sst.index_handle.offset / EBPF_BLOCK_SIZE) ∧
        entry.block_offset = sst.index_handle.offset - entry.offset ∧
        entry.offset % EBPF_BLOCK_SIZE = 0 ∧
        entry.block_offset < EBPF_BLOCK_SIZE ∧
        entry.offset + entry.block_offset = sst.index_handle.offset ∧
        entry.bytes_to_read = sst.index_handle.size ∧
        entry.stage = P.kIndexStage) := by
  have hmod : fd % UINT32_RANGE = fd := Nat.mod_eq_of_lt hfd
  have hidx : s.ctx.file_count < s.ctx.file_array.length := by omega
  refine ⟨{ s with
      ctx := { s.ctx with
        file_count := s.ctx.file_count + 1
        file_array := s.ctx.file_array.set s.ctx.file_count (new_file P sst cache_file fd) } },
    new_file P sst cache_file fd, ?_, rfl, ?_, ?_, ?_, ?_, ?_, ?_⟩
  · unfold AddFile
    rw [if_neg hskip, hfile]
    simp only [hmod, if_pos hcap]
  · simp
  · simp [hidx]
  · intro i hi
    simp [List.getElem?_set, Ne.symm hi]
  · unfold new_file
    split_ifs <;> rfl
  · intro hd
    have h1 := Nat.div_add_mod cache_file.offset 4096
    have h2 := Nat.mod_lt cache_file.offset (show 0 < 4096 by decide)
    simp only [new_file, if_pos hd, EBPF_BLOCK_SIZE]
    refine ⟨?_, ?_, ?_, ?_, ?_, ?_, ?_⟩ <;> first | trivial | omega
  · intro hi
    have hd : cache_file.stage ≠ P.kDataStage := by rw [hi]; exact hne
    have h1 := Nat.div_add_mod sst.index_handle.offset 4096
    have h2 := Nat.mod_lt sst.index_handle.offset (show 0 < 4096 by decide)
    simp only [new_file, if_neg hd, EBPF_BLOCK_SIZE]
    refine ⟨?_, ?_, ?_, ?_, ?_, ?_, ?_⟩ <;> first | trivial | omega

/-- Writing into the transfer buffer keeps its length. -/
theorem overwrite_length (old : List Nat) :
    ∀ new : List Nat, (overwrite old new).length = old.length := by
  induction old with
  | nil => intro new; rfl
  | cons o os ih =>
    intro new
    cases new with
    | nil => rfl
    | cons n ns => simp [overwrite, ih ns]

/-- `memset` keeps the length of a buffer it fits into. -/
theorem memset_length (buf : List Nat) (c n : Nat) (h : n ≤ buf.length) :
    (memset buf c n).length = buf.length := by
  simp [memset]
  omega

/-- `AddFile` keeps mode, program descriptor and transfer-buffer length. -/
theorem AddFile_shape (P : Params) (s : XRPContext) (sst : BlockBasedTable)
    (cache_file : file_context) (s1 : XRPContext)
    (h : AddFile P s sst cache_file = .ok s1) : same_shape s1 s := by
  unfold AddFile at h
  split_ifs at h with hskip
  · cases h; exact ⟨rfl, rfl, rfl⟩
  · cases hf : sst.file with
    | none => rw [hf] at h; cases h
    | some fd =>
      rw [hf] at h
      by_cases hcap : s.ctx.file_count < P.FILE_ARRAY_SIZE
      · simp only [if_pos hcap] at h
        cases h
        exact ⟨rfl, rfl, rfl⟩
      · simp only [if_neg hcap] at h
        cases h

/-- `Get` keeps mode, program descriptor and transfer-buffer length. -/
theorem Get_shape (P : Params) (sys : Offload) (gc : GetContext) (s : XRPContext)
    (key : List Nat) (value : Slice) (matched : Bool) :
    same_shape (Get P sys gc s key value matched).self s := by
  have hafter : ∀ res, same_shape (after_call s res) s :=
    fun res => ⟨rfl, rfl, overwrite_length _ _⟩
  by_cases hv : key.length > P.MAX_KEY_LEN ∨ s.ctx.file_count = 0
  · rw [Get_invalid P sys gc s key value matched hv]
    exact ⟨rfl, rfl, rfl⟩
  · have hkey : key.length ≤ P.MAX_KEY_LEN := by omega
    have hcount : 1 ≤ s.ctx.file_count := by omega
    by_cases hfound : (sys (offload_args P s key)).scratch.found = 1
    · by_cases hvt : (sys (offload_args P s key)).scratch.data_ctx.vt % 256 = P.kTypeValue
      · cases hlen : strlen (sys (offload_args P s key)).scratch.data_ctx.value with
        | none =>
          rw [Get_found_fault P sys gc s key value matched hkey hcount hfound hvt hlen]
          exact hafter _
        | some n =>
          rw [Get_found_value P sys gc s key value matched n hkey hcount hfound hvt hlen]
          exact hafter _
      · rw [Get_found_other P sys gc s key value matched hkey hcount hfound hvt]
        exact hafter _
    · rw [Get_not_found P sys gc s key value matched hkey hcount hfound]
      exact hafter _

/-- `Reset` keeps mode, program descriptor and transfer-buffer length. -/
theorem Reset_shape (P : Params) (s : XRPContext)
    (h : s.is_bpfof = true → s.data_buf.length = P.EBPF_SCRATCH_BUFFER_SIZE) :
    same_shape (Reset P s) s := by
  refine ⟨rfl, rfl, ?_⟩
  unfold Reset
  cases hb : s.is_bpfof with
  | false => simp
  | true =>
    simp only [if_true]
    exact memset_length _ _ _ (le_of_eq (h hb).symm)

/-- Every call keeps mode, program descriptor and transfer-buffer length. -/
theorem step_shape (P : Params) (sys : Offload) (s : XRPContext) (c : Call)
    (h : s.is_bpfof = true → s.data_buf.length = P.EBPF_SCRATCH_BUFFER_SIZE) :
    ∀ s1 o, step P sys s c = (some s1, o) → same_shape s1 s := by
  intro s1 o hs
  cases c with
  | AddFile sst cache_file =>
    simp only [step] at hs
    cases ha : AddFile P s sst cache_file with
    | error e =>
      rw [ha] at hs
      cases e with
      | threw x =>
        simp only [Prod.mk.injEq, Option.some.injEq] at hs
        rw [← hs.1]
        exact ⟨rfl, rfl, rfl⟩
      | fault f => simp at hs
    | ok s2 =>
      rw [ha] at hs
      simp only [Prod.mk.injEq, Option.some.injEq] at hs
      rw [← hs.1]
      exact AddFile_shape P s sst cache_file s2 ha
  | Get key value gc matched =>
    simp only [step] at hs
    cases hf : (Get P sys gc s key value matched).fault with
    | none =>
      rw [hf] at hs
      simp only [Prod.mk.injEq, Option.some.injEq] at hs
      rw [← hs.1]
      exact Get_shape P sys gc s key value matched
    | some f =>
      rw [hf] at hs
      simp at hs
  | Reset =>
    simp only [step, Prod.mk.injEq, Option.some.injEq] at hs
    rw [← hs.1]
    exact Reset_shape P s h

/-- Every sequence of calls keeps mode, program descriptor and transfer-buffer
length. -/
theorem run_shape (P : Params) (sys : Offload) (calls : List Call) :
    ∀ (s t : XRPContext),
      (t.is_bpfof = true → t.data_buf.length = P.EBPF_SCRATCH_BUFFER_SIZE) →
      same_shape s t → same_shape (run P sys s calls).1 t := by
  induction calls with
  | nil => intro s t _ h; exact h
  | cons c cs ih =>
    intro s t ht h
    have hs : s.is_bpfof = true → s.data_buf.length = P.EBPF_SCRATCH_BUFFER_SIZE := by
      intro hb
      rw [h.2.2]
      exact ht (h.1 ▸ hb)
    cases hstep : step P sys s c with
    | mk os o =>
      cases os with
      | none =>
        simp only [run, hstep]
        exact h
      | some s1 =>
        simp only [run, hstep]
        have h1 := step_shape P sys s c hs s1 o hstep
        exact ih s1 t ht ⟨h1.1.trans h.1, h1.2.1.trans h.2.1, h1.2.2.trans h.2.2⟩

/-- In bpfof mode the transfer buffer of a fresh object has
`EBPF_SCRATCH_BUFFER_SIZE` bytes. -/
theorem create_shape (P : Params) (progfd : Int) (mode : Bool) :
    (XRPContext.create P progfd mode).is_bpfof = true →
      (XRPContext.create P progfd mode).data_buf.length = P.EBPF_SCRATCH_BUFFER_SIZE := by
  cases mode <;> simp [XRPContext.create]

/-- `Reset` yields the freshly constructed object, in bpfof mode always and
otherwise when the transfer buffer holds what a fresh one holds. -/
theorem Reset_eq_create (P : Params) (progfd : Int) (mode : Bool) (s : XRPContext)
    (hs : same_shape s (XRPContext.create P progfd mode))
    (h : mode = true ∨ s.data_buf = (XRPContext.create P progfd mode).data_buf) :
    Reset P s = XRPContext.create P progfd mode := by
  obtain ⟨h1, h2, h3⟩ := hs
  cases mode with
  | true =>
    simp only [XRPContext.create, if_true, List.length_replicate] at h1 h2 h3 ⊢
    simp only [Reset, h1, if_true, memset, h2]
    rw [List.drop_of_length_le (le_of_eq h3), List.append_nil]
  | false =>
    have hd : s.data_buf = (XRPContext.create P progfd false).data_buf := by
      rcases h with h | h
      · cases h
      · exact h
    simp only [XRPContext.create] at h1 h2 hd ⊢
    simp only [Reset, h1, h2, hd]
    simp

/-- C6 (amended): let an object be opened in either mode and take any history of
`AddFile`, `Get` and `Reset` calls. In bpfof (Simulated) mode, and in the other
mode whenever the transfer buffer still holds what a fresh one holds, every
sequence of calls after `Reset` ends in the same object and yields the same
observations (statuses, values, matched flags, sink calls and offload-call
arguments) as on a freshly opened object of that mode. `Reset` leaves the
descriptor all zero in both modes, the transfer buffer all zero in bpfof mode,
and the transfer buffer as it was in the other mode. -/
theorem Reset_then_same_as_fresh (P : Params) (sys : Offload) (progfd : Int) (mode : Bool)
    (hist calls : List Call) :
    ((mode = true ∨
        (run P sys (XRPContext.create P progfd mode) hist).1.data_buf
          = (XRPContext.create P progfd mode).data_buf) →
      run P sys (Reset P (run P sys (XRPContext.create P progfd mode) hist).1) calls
        = run P sys (XRPContext.create P progfd mode) calls) ∧
    (Reset P (run P sys (XRPContext.create P progfd mode) hist).1).ctx = zero_ctx P ∧
    (mode = true →
      (Reset P (run P sys (XRPContext.create P progfd mode) hist).1).data_buf
        = List.replicate P.EBPF_SCRATCH_BUFFER_SIZE 0) ∧
    (mode = false →
      (Reset P (run P sys (XRPContext.create P progfd mode) hist).1).data_buf
        = (run P sys (XRPContext.create P progfd mode) hist).1.data_buf) := by
  have hshape := run_shape P sys hist (XRPContext.create P progfd mode)
    (XRPContext.create P progfd mode) (create_shape P progfd mode) ⟨rfl, rfl, rfl⟩
  refine ⟨?_, rfl, ?_, ?_⟩
  · intro h
    rw [Reset_eq_create P progfd mode _ hshape h]
  · intro hm
    rw [Reset_eq_create P progfd mode _ hshape (Or.inl hm), hm]
    rfl
  · intro hm
    have hb : (run P sys (XRPContext.create P progfd mode) hist).1.is_bpfof = false := by
      rw [hshape.1, hm]; rfl
    simp [Reset, hb]

/-- C6, counterexample: the non-bpfof (Privileged) mode with an offload call that
writes the byte 1 at the start of the transfer buffer. After one lookup and
`Reset`, the next lookup hands the offload call a transfer buffer that starts
with 1; on a freshly opened object the same lookup hands it one that starts
with 0. -/
theorem Reset_keeps_stale_transfer_buffer :
    transfer_heads
      (run refParams scribble_offload
        (Reset refParams
          (run refParams scribble_offload (XRPContext.create refParams 3 false)
            lookup_calls).1)
        lookup_calls).2 = [some 1] ∧
    transfer_heads
      (run refParams scribble_offload (XRPContext.create refParams 3 false) lookup_calls).2
        = [some 0] := by
  decide

/-- `setenv("XRP_SAMPLE_RATE", value, 1)` succeeds and sets the variable. -/
theorem setenv_sample_rate (env : Env) (value : String) :
    setenv env "XRP_SAMPLE_RATE" value 1
      = (0, fun n => if n = "XRP_SAMPLE_RATE" then some value else env n) := by
  unfold setenv
  rw [if_neg (by decide), if_pos (Or.inl (by decide))]

/-- `handleCompaction` leaves the environment as it found it. -/
theorem handleCompaction_after (sec : Int) (env : Env) :
    (handleCompaction sec env).after = env := by
  unfold handleCompaction
  cases ha : getenv env "XRP_ADAPTIVE_RATE" with
  | none => rfl
  | some a =>
    cases hr : getenv env "XRP_SAMPLE_RATE" with
    | none => rfl
    | some old_rate =>
      simp only [setenv_sample_rate]
      simp only [ne_eq, not_true_eq_false, if_false]
      funext n
      by_cases hn : n = "XRP_SAMPLE_RATE"
      · simp only [hn, if_true]
        exact hr.symm
      · simp only [hn, if_false]

/-- With the toggle present and a rate configured, the rate variable reads `1`
while `handleCompaction` sleeps and everything else is as before. -/
theorem handleCompaction_during (sec : Int) (env : Env) (a old_rate : String)
    (ha : getenv env "XRP_ADAPTIVE_RATE" = some a)
    (hr : getenv env "XRP_SAMPLE_RATE" = some old_rate) :
    (handleCompaction sec env).during_sleep
      = some (fun n => if n = "XRP_SAMPLE_RATE" then some "1" else env n) := by
  unfold handleCompaction
  rw [ha]
  simp only [hr, setenv_sample_rate]
  simp

/-- C7: with the environment as explicit state, for every duration, when the
adaptive toggle is present and the rate is configured as 50, `GetSampleRate`
returns 50 before `handleCompaction`, there is a window and `GetSampleRate`
returns exactly 1 in it, and returns exactly 50 after `handleCompaction`
returns; and for every duration and every environment the rate read after
`handleCompaction` is the rate read before it. -/
theorem handleCompaction_sample_rates (sec : Int) (env : Env)
    (hadapt : getenv env "XRP_ADAPTIVE_RATE" ≠ none)
    (hrate : getenv env "XRP_SAMPLE_RATE" = some "50") :
    GetSampleRate env = .ok 50 ∧
    (∃ during, (handleCompaction sec env).during_sleep = some during ∧
      GetSampleRate during = .ok 1) ∧
    GetSampleRate (handleCompaction sec env).after = .ok 50 ∧
    (∀ (sec1 : Int) (env1 : Env),
      GetSampleRate (handleCompaction sec1 env1).after = GetSampleRate env1) := by
  have h50 : GetSampleRate env = .ok 50 := by
    unfold GetSampleRate
    rw [hrate]
    rfl
  refine ⟨h50, ?_, ?_, ?_⟩
  · cases ha : getenv env "XRP_ADAPTIVE_RATE" with
    | none => exact absurd ha hadapt
    | some a =>
      refine ⟨_, handleCompaction_during sec env a "50" ha hrate, ?_⟩
      rfl
  · rw [handleCompaction_after]
    exact h50
  · intro sec1 env1
    rw [handleCompaction_after]

/-- C7, witness: an environment with the toggle present and the rate set to 50,
window of 30 seconds. -/
theorem handleCompaction_sample_rates_witness :
    getenv adaptive_env "XRP_ADAPTIVE_RATE" ≠ none ∧
    getenv adaptive_env "XRP_SAMPLE_RATE" = some "50" ∧
    (GetSampleRate adaptive_env = .ok 50 ∧
    (∃ during, (handleCompaction 30 adaptive_env).during_sleep = some during ∧
      GetSampleRate during = .ok 1) ∧
    GetSampleRate (handleCompaction 30 adaptive_env).after = .ok 50 ∧
    (∀ (sec1 : Int) (env1 : Env),
      GetSampleRate (handleCompaction sec1 env1).after = GetSampleRate env1)) :=
  ⟨by decide, by decide,
    handleCompaction_sample_rates 30 adaptive_env (by decide) (by decide)⟩

/-- C8, failing input: with `XRP_SAMPLE_RATE=99999999999` the call `std::stoi`
throws `std::out_of_range`, which `GetSampleRate` does not catch: the exception
leaves the function instead of the default 100 being returned. -/
theorem GetSampleRate_out_of_range :
    GetSampleRate oversized_env = .error StoiError.out_of_range := by
  rfl

/-- With the variable unset `GetSampleRate` returns 100. -/
theorem GetSampleRate_unset (env : Env) (h : getenv env "XRP_SAMPLE_RATE" = none) :
    GetSampleRate env = .ok 100 := by
  unfold GetSampleRate
  rw [h]

/-- When `std::stoi` finds no number `GetSampleRate` returns 100. -/
theorem GetSampleRate_invalid (env : Env) (text : String)
    (h : getenv env "XRP_SAMPLE_RATE" = some text)
    (hs : stoi text = .error StoiError.invalid_argument) :
    GetSampleRate env = .ok 100 := by
  unfold GetSampleRate
  rw [h]
  simp only [hs]

/-- C10, failing input: the key `a`, 0, `b` with one descriptor registered. The
first three bytes of the descriptor key handed to the offload call are `a`, 0,
0: `strncpy` stops copying at the zero byte and pads with zeros. -/
theorem Get_key_with_zero_byte :
    (syscall_args
      (Get refParams null_offload keep_matched scenario_state [97, 0, 98] caller_value
        false).events).map (fun a => a.scratch.key.take 3) = [[97, 0, 0]] := by
  decide

/-- `strncpy` copies a source without zero byte unchanged. -/
theorem strncpy_bytes_no_zero (src : List Nat) (h : 0 ∉ src) :
    strncpy_bytes src src.length = src := by
  induction src with
  | nil => rfl
  | cons c cs ih =>
    have hc : c ≠ 0 := fun e => h (by simp [e])
    have hcs : 0 ∉ cs := fun e => h (List.mem_cons_of_mem _ e)
    simp [strncpy_bytes, hc, ih hcs]

/-- `strncpy` stores exactly `n` bytes. -/
theorem strncpy_bytes_length (src : List Nat) :
    ∀ n, (strncpy_bytes src n).length = n := by
  induction src with
  | nil => intro n; cases n <;> simp [strncpy_bytes]
  | cons c cs ih =>
    intro n
    cases n with
    | zero => simp [strncpy_bytes]
    | succ n =>
      by_cases hc : c = 0
      · simp [strncpy_bytes, hc]
      · simp [strncpy_bytes, hc, ih n]

/-- A key without zero byte reaches the offload call unchanged at the start of the
descriptor key. -/
theorem Get_copies_zero_free_key (P : Params) (s : XRPContext) (key : List Nat)
    (h : 0 ∉ key) :
    (offload_args P s key).scratch.key.take key.length = key := by
  simp only [offload_args, seeded_ctx, strncpy]
  rw [strncpy_bytes_no_zero key h]
  simp

/-- C9, witness: `AddFile(Data, offset 5000, 200 bytes)` on a fresh object with
`table7` stores the entry (7, 4096, 904, 200, Data) at index 0. -/
theorem AddFile_appends_witness :
    ∃ s1 entry,
      AddFile refParams (XRPContext.create refParams 0 true) table7 ⟨7, 5000, 0, 200, 4⟩
        = .ok s1 ∧
      s1.ctx.file_count = 1 ∧
      s1.ctx.file_array[0]? = some entry ∧
      entry = ⟨7, 4096, 904, 200, 4⟩ := by
  obtain ⟨s1, entry, h1, h2, _, h4, _, h6, h7, _⟩ :=
    AddFile_appends refParams (XRPContext.create refParams 0 true) table7
      ⟨7, 5000, 0, 200, 4⟩ 7 (by decide) (by decide) (by decide) rfl (by decide) (by decide)
  obtain ⟨e1, e2, _, _, _, e6, e7⟩ := h7 rfl
  refine ⟨s1, entry, h1, h2, h4, ?_⟩
  cases entry
  simp only [file_context.mk.injEq]
  simp only at h6 e1 e2 e6 e7
  subst h6 e1 e6 e7
  exact ⟨rfl, rfl, e2, rfl, rfl⟩

end XRP
